import Mathlib

/-!
# A shallow embedding of the `vello` HTTP client

This file embeds the request-execution pipeline of the `vello` TypeScript
HTTP client (class `vello`, cache-enabled variant): configuration merging,
cache lookup/population, the network attempt loop with retry and backoff,
and the error classifier, together with theorems checking the library
specification against this embedding.

Modelling conventions:
* JavaScript numbers used for times/delays are modelled as `Int` (they may
  be subtracted below zero); HTTP status codes as `Nat`.
* A JS `x || default` on a number/string (falsy fallback) is modelled by
  `orFalsyInt` / `orFalsyStr`, which treat `0` / `""` like `undefined`.
* Optional TS fields are `Option` fields.
* The transport (`fetch`) is modelled as an oracle `net : Nat → FetchResult`
  giving the outcome of each attempt (indexed by the zero-based retry count).
* The browser-storage and caller-supplied cache drivers are modelled as
  functions in an environment record `CacheEnv`; their operations return
  `Except String _` so that thrown storage errors are representable.
  The config records only the *presence* of the optional custom-storage
  methods; the driver functions themselves live in the environment.
* Parsed response payloads are modelled as `String`; a raw response carries
  `jsonBody : Option String` (the result of a successful structured parse)
  and `textBody : String` (the raw text fallback).
* The `config` back-reference stored inside a TS `VelloResponse` and
  `VelloError` is not modelled (it would make the types mutually recursive
  with the interceptor function fields and no claim concerns it).
-/

deriving instance DecidableEq for Except

namespace Vello

/-- `s.includes(sub)` for strings: `sub` occurs as a contiguous substring
(checked over the underlying character lists). -/
def containsSub (s sub : String) : Bool :=
  List.any s.data.tails (fun t => List.isPrefixOf sub.data t)

/-- JS `x || d` for an optional number: `undefined` and `0` fall back. -/
def orFalsyInt (o : Option Int) (d : Int) : Int :=
  match o with
  | none => d
  | some t => if t = 0 then d else t

/-- JS `s || d` for a string: the empty string falls back. -/
def orFalsyStr (s : String) (d : String) : String :=
  if s = "" then d else s

/-- JS `s || d` for an optional string: `undefined` and `""` fall back. -/
def orFalsyStrO (o : Option String) (d : String) : String :=
  match o with
  | none => d
  | some s => if s = "" then d else s

/-- HTTP methods (`HttpMethod` in `types`). -/
inductive HttpMethod where
  | GET | POST | PUT | PATCH | DELETE | HEAD | OPTIONS
deriving DecidableEq, Repr

/-- `responseType` selector of a request. -/
inductive ResponseType where
  | json | text | blob | arrayBuffer
deriving DecidableEq, Repr

/-- `VelloResponse<T>`: parsed payload, status, status text, headers.
Payloads are modelled as strings and headers as association lists. -/
structure VelloResponse where
  data : String
  status : Nat
  statusText : String
  headers : List (String × String)
deriving DecidableEq, Repr

/-- `VelloError`: message, optional attached response, classification code,
attempt count at the time of raising. -/
structure VelloError where
  message : String
  response : Option VelloResponse
  code : Option String
  retryCount : Nat
deriving DecidableEq, Repr

/-- A raw value thrown during one attempt, as seen by the `catch` block of
`executeRequestWithRetry`: an abort (timeout) signal, a `TypeError` (the
shape of a fetch connectivity failure), an already-classified `VelloError`
(thrown by `handleErrorResponse`), or anything else. -/
inductive RawError where
  | abort (msg : String)
  | typeErr (msg : String)
  | vello (e : VelloError)
  | other (msg : String)
deriving DecidableEq, Repr

/-- A resolved `fetch` response: status, status text, the result of a
structured (JSON) parse when it succeeds, the raw text body, headers. -/
structure RawResponse where
  status : Nat
  statusText : String
  jsonBody : Option String
  textBody : String
  headers : List (String × String)
deriving DecidableEq, Repr

/-- Outcome of one `fetch` call: a response, or a thrown raw error. -/
inductive FetchResult where
  | ok (r : RawResponse)
  | fail (e : RawError)
deriving DecidableEq, Repr

/-- `RetryConfig`: all fields optional, as in the TS interface. -/
structure RetryConfig where
  retries : Option Nat := none
  retryDelay : Option Int := none
  retryCondition : Option (VelloError → Bool) := none
  retryDelayFunction : Option (Nat → VelloError → Int) := none

/-- Storage backend selector of the cache policy. -/
inductive StorageKind where
  | memory | localStorage | sessionStorage | custom
deriving DecidableEq, Repr

/-- Presence of the optional methods of a caller-supplied storage driver
(`customStorage?.get` / `customStorage?.set`); the driver functions
themselves are modelled in `CacheEnv`. -/
structure CustomStorageSig where
  hasGet : Bool := true
  hasSet : Bool := true
deriving DecidableEq, Repr

/-- Cache key override: a fixed string, or a function of the URL (the TS
key function also receives the resolved config; no claim exercises that
argument and it is not modelled). -/
inductive CacheKeySpec where
  | str (s : String)
  | fn (f : String → String)

/-- `CacheConfig`: the cache policy, all fields optional. -/
structure CacheConfig where
  enabled : Option Bool := none
  ttl : Option Int := none
  storage : Option StorageKind := none
  methods : Option (List HttpMethod) := none
  safePaths : Option (List String) := none
  allowUnsafeMethods : Option Bool := none
  key : Option CacheKeySpec := none
  customStorage : Option CustomStorageSig := none

/-- `RequestConfig`: per-call options. `headers` is an association list in
which later entries override earlier ones on lookup (object spread). -/
structure RequestConfig where
  method : Option HttpMethod := none
  headers : List (String × String) := []
  body : Option String := none
  timeout : Option Int := none
  baseUrl : Option String := none
  responseType : Option ResponseType := none
  retry : RetryConfig := {}
  cache : CacheConfig := {}

/-- `VelloConfig`: the configuration owned by the client. The error interceptor is
side-effect-only (`void`) and is not modelled. -/
structure VelloConfig where
  baseUrl : String
  timeout : Option Int := none
  defaultHeaders : List (String × String) := []
  retry : RetryConfig := {}
  cache : CacheConfig := {}
  requestInterceptor : Option (RequestConfig → RequestConfig) := none
  responseInterceptor : Option (VelloResponse → VelloResponse) := none

/-- `CachedResponse<T>`: one stored cache entry. -/
structure CachedResponse where
  data : String
  timestamp : Int
  ttl : Int
  headers : List (String × String)
  status : Nat
  statusText : String
deriving DecidableEq, Repr

/-- The in-memory cache map of the client (`this.cache : Map<string, CachedResponse>`),
modelled as an association list with at most one binding per key. -/
abbrev Cache := List (String × CachedResponse)

/-- `Map.get(key) || null`. -/
def memGet (m : Cache) (k : String) : Option CachedResponse :=
  match (List.find? (fun p => p.1 == k) m) with
  | some p => some p.2
  | none => none

/-- `Map.set(key, v)`: replace in place when the key exists, append otherwise. -/
def memSet (m : Cache) (k : String) (v : CachedResponse) : Cache :=
  if (List.any m (fun p => p.1 == k)) then
    List.map (fun p => if p.1 == k then (k, v) else p) m
  else
    m ++ [(k, v)]

/-- Environment of storage drivers outside the client: the browser storages
(availability flag plus `getItem`+parse / stringify+`setItem`, which may
throw) and `get`/`set` of the caller-supplied driver. -/
structure CacheEnv where
  hasLocalStorage : Bool := false
  hasSessionStorage : Bool := false
  localGet : String → Except String (Option CachedResponse) := fun _ => .ok none
  localSet : String → CachedResponse → Except String Unit := fun _ _ => .ok ()
  sessionGet : String → Except String (Option CachedResponse) := fun _ => .ok none
  sessionSet : String → CachedResponse → Except String Unit := fun _ _ => .ok ()
  customGet : String → Except String (Option CachedResponse) := fun _ => .ok none
  customSet : String → CachedResponse → Option Int → Except String Unit := fun _ _ _ => .ok ()

/-- Right-biased lookup in a header object: a later binding wins. -/
def hLookup (hs : List (String × String)) (k : String) : Option String :=
  List.foldl (fun acc (p : String × String) => if p.1 == k then some p.2 else acc) none hs

/-! ## Error classification (`shouldRetryRequest` / `handleError` wrap) -/

/-- The classification performed identically in `shouldRetryRequest` and
`handleError`: keep a `VelloError`; an `AbortError` becomes code `TIMEOUT`
with message `Request timeout`; a `TypeError` whose message includes
`fetch` becomes code `NETWORK_ERROR` with message `Network error`;
anything else becomes code `UNKNOWN` with the raw message
(`error.message` with the falsy fallback `Unknown error`). -/
def classifyError (e : RawError) (retryCount : Nat) : VelloError :=
  match e with
  | .vello v => v
  | .abort _ => ⟨"Request timeout", none, some "TIMEOUT", retryCount⟩
  | .typeErr m =>
      if containsSub m "fetch" then ⟨"Network error", none, some "NETWORK_ERROR", retryCount⟩
      else ⟨orFalsyStr m "Unknown error", none, some "UNKNOWN", retryCount⟩
  | .other m => ⟨orFalsyStr m "Unknown error", none, some "UNKNOWN", retryCount⟩

/-- `defaultRetryCondition`: retry on code `NETWORK_ERROR` or `TIMEOUT`, or
when an attached response has truthy status with `status >= 500`. -/
def defaultRetryCondition (e : VelloError) : Bool :=
  if e.code = some "NETWORK_ERROR" ∨ e.code = some "TIMEOUT" then
    true
  else
    match e.response with
    | some r => decide (r.status ≠ 0) && decide (500 ≤ r.status)
    | none => false

/-- `handleErrorResponse`: build the `VelloError` thrown for a non-2xx
response: best-effort body (structured parse, falling back to raw text),
message `HTTP Error <status>: <statusText>`, code = status as a string. -/
def handleErrorResponse (r : RawResponse) (retryCount : Nat) : VelloError :=
  let errorData := r.jsonBody.getD r.textBody
  let errorResponse : VelloResponse := ⟨errorData, r.status, r.statusText, r.headers⟩
  { message := "HTTP Error " ++ toString r.status ++ ": " ++ r.statusText
    response := some errorResponse
    code := some (toString r.status)
    retryCount := retryCount }

/-! ## Retry scheduler -/

/-- `shouldRetryRequest`: never beyond `retries || 0` retries; otherwise ask
the configured predicate (default `defaultRetryCondition`) on the
classified error. -/
def shouldRetryRequest (cfg : RequestConfig) (e : RawError) (retryCount : Nat) : Bool :=
  let maxRetries := cfg.retry.retries.getD 0
  if maxRetries ≤ retryCount then
    false
  else
    (cfg.retry.retryCondition.getD defaultRetryCondition) (classifyError e retryCount)

/-- The wrapping performed inside `calculateRetryDelay`: a non-`VelloError`
is wrapped as `UNKNOWN` (without the abort/fetch classification). -/
def delayErrorOf (e : RawError) (retryCount : Nat) : VelloError :=
  match e with
  | .vello v => v
  | .abort m => ⟨orFalsyStr m "Unknown error", none, some "UNKNOWN", retryCount⟩
  | .typeErr m => ⟨orFalsyStr m "Unknown error", none, some "UNKNOWN", retryCount⟩
  | .other m => ⟨orFalsyStr m "Unknown error", none, some "UNKNOWN", retryCount⟩

/-- `calculateRetryDelay`: custom delay function if configured, else
`(retryDelay || 1000) * 2 ^ retryCount`. -/
def calculateRetryDelay (rc : RetryConfig) (retryCount : Nat) (e : RawError) : Int :=
  match rc.retryDelayFunction with
  | some f => f retryCount (delayErrorOf e retryCount)
  | none => orFalsyInt rc.retryDelay 1000 * 2 ^ retryCount

/-! ## Response parsing and a single attempt -/

/-- `parseResponse`: select the payload representation. Binary bodies are
modelled as their text form. -/
def parseResponse (r : RawResponse) (rt : ResponseType) : String :=
  match rt with
  | .json => r.jsonBody.getD r.textBody
  | .text => r.textBody
  | .blob => r.textBody
  | .arrayBuffer => r.textBody

/-- Apply the optional response interceptor. -/
def applyRespI (respI : Option (VelloResponse → VelloResponse)) (r : VelloResponse) : VelloResponse :=
  match respI with
  | some f => f r
  | none => r

/-- The body of one attempt inside the `try` block of `executeRequestWithRetry`:
a thrown raw error propagates; a non-ok (status outside `[200,300)`)
response turns into the `VelloError` of `handleErrorResponse`; otherwise
the parsed `VelloResponse` (after the response interceptor) is produced. -/
def attemptOnce (respI : Option (VelloResponse → VelloResponse)) (cfg : RequestConfig)
    (fr : FetchResult) (retryCount : Nat) : Except RawError VelloResponse :=
  match fr with
  | .fail e => .error e
  | .ok r =>
      if 200 ≤ r.status ∧ r.status < 300 then
        .ok (applyRespI respI ⟨parseResponse r (cfg.responseType.getD .json), r.status, r.statusText, r.headers⟩)
      else
        .error (.vello (handleErrorResponse r retryCount))

/-- Result of the attempt loop: the outcome (the raw thrown value on
failure, exactly as `throw error` rethrows it), the number of network
attempts performed, and the list of inter-attempt delays slept. -/
structure LoopOut where
  outcome : Except RawError VelloResponse
  attempts : Nat
  delays : List Int
deriving Repr

/-- The attempt loop of `executeRequestWithRetry`, with an explicit fuel
making the recursion structural: `fuel` bounds the number of retries still
allowed. `shouldRetryRequest` is true only when `retryCount` is below the
maximum, so with `fuel = maxRetries - retryCount` the zero-fuel branch is
unreachable. -/
def execLoopF (respI : Option (VelloResponse → VelloResponse)) (cfg : RequestConfig)
    (net : Nat → FetchResult) : Nat → Nat → LoopOut
  | fuel, retryCount =>
    match attemptOnce respI cfg (net retryCount) retryCount with
    | .ok resp => ⟨.ok resp, 1, []⟩
    | .error e =>
        if shouldRetryRequest cfg e retryCount then
          match fuel with
          | 0 => ⟨.error e, 1, []⟩
          | fuel' + 1 =>
              let d := calculateRetryDelay cfg.retry retryCount e
              let r := execLoopF respI cfg net fuel' (retryCount + 1)
              ⟨r.outcome, r.attempts + 1, d :: r.delays⟩
        else
          ⟨.error e, 1, []⟩

/-- `executeRequestWithRetry`: attempt, and on failure either sleep the
computed delay and recurse with `retryCount + 1`, or (after offering the
classified error to the error interceptor, a pure no-op here) rethrow the
raw error. -/
def execLoop (respI : Option (VelloResponse → VelloResponse)) (cfg : RequestConfig)
    (net : Nat → FetchResult) (retryCount : Nat) : LoopOut :=
  execLoopF respI cfg net (cfg.retry.retries.getD 0 - retryCount) retryCount

/-! ## Cache store -/

/-- `isCacheValid`: the entry is live iff `now - entry.timestamp < ttl` for
the ttl passed by the caller. -/
def isCacheValid (now : Int) (c : CachedResponse) (ttl : Int) : Bool :=
  decide (now - c.timestamp < ttl)

/-- Field-wise merge `{...a, ...b}` of two cache policies. -/
def mergeCacheConfig (a b : CacheConfig) : CacheConfig :=
  { enabled := b.enabled <|> a.enabled
    ttl := b.ttl <|> a.ttl
    storage := b.storage <|> a.storage
    methods := b.methods <|> a.methods
    safePaths := b.safePaths <|> a.safePaths
    allowUnsafeMethods := b.allowUnsafeMethods <|> a.allowUnsafeMethods
    key := b.key <|> a.key
    customStorage := b.customStorage <|> a.customStorage }

/-- The conventional read-oriented path pattern
`/\/(search|query|filter|list|find|get)/.test(endpoint)`. -/
def readPattern (endpoint : String) : Bool :=
  List.any ["/search", "/query", "/filter", "/list", "/find", "/get"]
    (fun p => containsSub endpoint p)

/-- `isCacheableRequest`: explicit method list, GET/HEAD, the
allow-all-methods flag, then the POST heuristics (safe-path substrings
when `safePaths` is configured, otherwise the GraphQL content type or the
read-oriented pattern). -/
def isCacheableRequest (c : VelloConfig) (endpoint : String) (cfg : RequestConfig) : Bool :=
  let cacheConfig := mergeCacheConfig c.cache cfg.cache
  let method := cfg.method.getD .GET
  if (match cacheConfig.methods with
      | some ms => List.contains ms method
      | none => false) then
    true
  else if method = .GET ∨ method = .HEAD then
    true
  else if cacheConfig.allowUnsafeMethods = some true then
    true
  else if method = .POST then
    match cacheConfig.safePaths with
    | some paths => List.any paths (fun p => containsSub endpoint p)
    | none =>
        let contentType := (hLookup cfg.headers "Content-Type").getD ""
        if containsSub contentType "application/graphql" then
          true
        else
          readPattern endpoint
  else
    false

/-- The ASCII-safe encoding of the default cache key
(`btoa(unescape(encodeURIComponent(...)))` with `[+/=]` replaced): an
external collaborator, modelled as the identity on the key material. -/
def velloEncode (s : String) : String := s

/-- `JSON.stringify(config.headers || {})`, modelled as the canonical
rendering of the association list. -/
def encodeHeaders (hs : List (String × String)) : String :=
  toString hs

/-- Printed form of a method, for the default cache key. -/
def methodStr (m : HttpMethod) : String :=
  match m with
  | .GET => "GET" | .POST => "POST" | .PUT => "PUT" | .PATCH => "PATCH"
  | .DELETE => "DELETE" | .HEAD => "HEAD" | .OPTIONS => "OPTIONS"

/-- `generateCacheKey`: a configured key function or fixed string wins;
otherwise `vello:` + encoded `method:url:headers:body`. -/
def generateCacheKey (c : VelloConfig) (url : String) (cfg : RequestConfig) : String :=
  let cacheConfig := mergeCacheConfig c.cache cfg.cache
  match cacheConfig.key with
  | some (.fn f) => f url
  | some (.str s) => s
  | none =>
      let method := cfg.method.getD .GET
      let headers := encodeHeaders cfg.headers
      let body := cfg.body.getD ""
      "vello:" ++ velloEncode (methodStr method ++ ":" ++ url ++ ":" ++ headers ++ ":" ++ body)

/-- The `switch` inside `getFromCache`, before the surrounding `try/catch`:
may fail when a storage driver throws. -/
def getFromCacheRaw (env : CacheEnv) (cacheConfig : CacheConfig) (mem : Cache)
    (key : String) : Except String (Option CachedResponse) :=
  match cacheConfig.storage with
  | some .localStorage =>
      if env.hasLocalStorage then env.localGet key else .ok none
  | some .sessionStorage =>
      if env.hasSessionStorage then env.sessionGet key else .ok none
  | some .custom =>
      match cacheConfig.customStorage with
      | some cs => if cs.hasGet then env.customGet key else .ok none
      | none => .ok none
  | some .memory => .ok (memGet mem key)
  | none => .ok (memGet mem key)

/-- `getFromCache`: the raw read with its `try/catch` — a thrown storage
error is logged and the read returns `null`. -/
def getFromCache (env : CacheEnv) (cacheConfig : CacheConfig) (mem : Cache)
    (key : String) : Option CachedResponse :=
  match getFromCacheRaw env cacheConfig mem key with
  | .ok v => v
  | .error _ => none

/-- The `switch` inside `setToCache`, before the surrounding `try/catch`:
returns the new in-memory map (only the memory backend touches it); a
storage driver may throw. The `set` of the custom driver receives the policy
ttl. -/
def setToCacheRaw (env : CacheEnv) (cacheConfig : CacheConfig) (mem : Cache)
    (key : String) (d : CachedResponse) : Except String Cache :=
  match cacheConfig.storage with
  | some .localStorage =>
      if env.hasLocalStorage then
        match env.localSet key d with
        | .ok _ => .ok mem
        | .error msg => .error msg
      else .ok mem
  | some .sessionStorage =>
      if env.hasSessionStorage then
        match env.sessionSet key d with
        | .ok _ => .ok mem
        | .error msg => .error msg
      else .ok mem
  | some .custom =>
      match cacheConfig.customStorage with
      | some cs =>
          if cs.hasSet then
            match env.customSet key d cacheConfig.ttl with
            | .ok _ => .ok mem
            | .error msg => .error msg
          else .ok mem
      | none => .ok mem
  | some .memory => .ok (memSet mem key d)
  | none => .ok (memSet mem key d)

/-- `setToCache`: the raw write with its `try/catch` — a thrown storage
error is logged and ignored, leaving the in-memory map as it was. -/
def setToCache (env : CacheEnv) (cacheConfig : CacheConfig) (mem : Cache)
    (key : String) (d : CachedResponse) : Cache :=
  match setToCacheRaw env cacheConfig mem key d with
  | .ok m => m
  | .error _ => mem

/-- `getCacheStats`: size and key list of the in-memory cache map only. -/
def getCacheStats (mem : Cache) : Nat × List String :=
  (mem.length, List.map Prod.fst mem)

/-! ## The request pipeline -/

/-- Field-wise merge of retry policies with the library defaults:
`{retries: 0, retryDelay: 1000, retryCondition: default, ...client, ...per-call}`. -/
def resolveRetry (a b : RetryConfig) : RetryConfig :=
  { retries := (b.retries <|> a.retries) <|> some 0
    retryDelay := (b.retryDelay <|> a.retryDelay) <|> some 1000
    retryCondition := (b.retryCondition <|> a.retryCondition) <|> some defaultRetryCondition
    retryDelayFunction := b.retryDelayFunction <|> a.retryDelayFunction }

/-- Field-wise merge of cache policies with the library defaults:
`{enabled: false, ttl: 5 min, storage: memory, ...client, ...per-call}`. -/
def resolveCache (a b : CacheConfig) : CacheConfig :=
  { mergeCacheConfig a b with
    enabled := (b.enabled <|> a.enabled) <|> some false
    ttl := (b.ttl <|> a.ttl) <|> some (5 * 60 * 1000)
    storage := (b.storage <|> a.storage) <|> some .memory }

/-- The merged `requestConfig` built at the top of `request`: defaults,
then the per-call options, then the merged header object
`Content-Type: application/json`, then the default headers, then the per-call headers
and the merged retry/cache sub-policies. -/
def resolveConfig (c : VelloConfig) (options : RequestConfig) : RequestConfig :=
  { method := options.method
    headers := ("Content-Type", "application/json") :: c.defaultHeaders ++ options.headers
    body := options.body
    timeout := options.timeout <|> some (orFalsyInt c.timeout 10000)
    baseUrl := options.baseUrl
    responseType := options.responseType <|> some .json
    retry := resolveRetry c.retry options.retry
    cache := resolveCache c.cache options.cache }

/-- The working config of a call: the merged config, transformed by the
request interceptor when one is configured. -/
def resolvedOf (c : VelloConfig) (options : RequestConfig) : RequestConfig :=
  match c.requestInterceptor with
  | some f => f (resolveConfig c options)
  | none => resolveConfig c options

/-- `requestConfig.cache?.enabled` truthiness. -/
def cacheEnabled (cfg : RequestConfig) : Bool :=
  cfg.cache.enabled = some true

/-- `${requestConfig.baseUrl || this.config.baseUrl}${endpoint}`. -/
def urlOf (c : VelloConfig) (cfg : RequestConfig) (endpoint : String) : String :=
  orFalsyStrO cfg.baseUrl c.baseUrl ++ endpoint

/-- The effective ttl used both by the validity check on lookup and by the
stored entry: `requestConfig.cache.ttl || 5 * 60 * 1000`. -/
def effTtl (cfg : RequestConfig) : Int :=
  orFalsyInt cfg.cache.ttl (5 * 60 * 1000)

/-- Result of one `request` call: the outcome, the number of network
attempts, the delays slept, and the in-memory cache map afterwards. -/
structure RunOut where
  outcome : Except RawError VelloResponse
  attempts : Nat
  delays : List Int
  mem : Cache
deriving Repr

/-- `request`: merge config, run the request interceptor, try the cache
(on a live entry synthesize the envelope with the `(Cached)` marker, run
the response interceptor, and return with no network activity), otherwise
run the attempt loop and store a 2xx response of a cache-eligible request. -/
def request (env : CacheEnv) (c : VelloConfig) (net : Nat → FetchResult)
    (endpoint : String) (options : RequestConfig) (mem : Cache) (now : Int) : RunOut :=
  let requestConfig := resolvedOf c options
  let doCache := cacheEnabled requestConfig && isCacheableRequest c endpoint requestConfig
  let url := urlOf c requestConfig endpoint
  let cacheKey := generateCacheKey c url requestConfig
  let hit : Option CachedResponse :=
    if doCache then
      match getFromCache env requestConfig.cache mem cacheKey with
      | some cached => if isCacheValid now cached (effTtl requestConfig) then some cached else none
      | none => none
    else none
  match hit with
  | some cached =>
      let response : VelloResponse :=
        ⟨cached.data, cached.status, cached.statusText ++ " (Cached)", cached.headers⟩
      ⟨.ok (applyRespI c.responseInterceptor response), 0, [], mem⟩
  | none =>
      let r := execLoop c.responseInterceptor requestConfig net 0
      match r.outcome with
      | .ok response =>
          if doCache && decide (200 ≤ response.status) && decide (response.status < 300) then
            let cachedData : CachedResponse :=
              ⟨response.data, now, effTtl requestConfig, response.headers,
                response.status, response.statusText⟩
            ⟨.ok response, r.attempts, r.delays, setToCache env requestConfig.cache mem cacheKey cachedData⟩
          else
            ⟨.ok response, r.attempts, r.delays, mem⟩
      | .error e => ⟨.error e, r.attempts, r.delays, mem⟩

/-- Does the outcome of a run consist of a raised classified client error
(a `VelloError`), as opposed to a success or a rethrown raw error? -/
def raisedClientError (r : RunOut) : Bool :=
  match r.outcome with
  | .error (.vello _) => true
  | _ => false

/-- Replace every storage-driver operation of an environment by a benign
version: a read that would throw reports a miss instead, and a write does
nothing. Used to state that storage failures are absorbed. -/
def sanitizeEnv (env : CacheEnv) : CacheEnv :=
  { hasLocalStorage := env.hasLocalStorage
    hasSessionStorage := env.hasSessionStorage
    localGet := fun k => match env.localGet k with | .ok v => .ok v | .error _ => .ok none
    localSet := fun _ _ => .ok ()
    sessionGet := fun k => match env.sessionGet k with | .ok v => .ok v | .error _ => .ok none
    sessionSet := fun _ _ => .ok ()
    customGet := fun k => match env.customGet k with | .ok v => .ok v | .error _ => .ok none
    customSet := fun _ _ _ => .ok () }

/-! ## Concrete fixtures used by closed counterexamples and witnesses -/

/-- An environment with no browser storage and trivial drivers. -/
def env0 : CacheEnv := {}

/-- A transport whose every attempt times out (`AbortError`). -/
def netAbort : Nat → FetchResult := fun _ => .fail (.abort "The operation was aborted.")

/-- A transport whose every attempt succeeds with a plain 200 response. -/
def netOk200 : Nat → FetchResult := fun _ => .ok ⟨200, "OK", some "net-body", "net-body", []⟩

/-- A transport whose every attempt yields a 404 response. -/
def net404 : Nat → FetchResult := fun _ => .ok ⟨404, "Not Found", none, "missing", []⟩

/-- A cache entry stored with `ttl = 1000` at `timestamp = 0`. -/
def entryTtl1000 : CachedResponse := ⟨"cached-body", 0, 1000, [], 200, "OK"⟩

/-- A client with caching enabled under the fixed key `k` and a per-policy
ttl of 5000. -/
def clientTtl5000 : VelloConfig :=
  { baseUrl := "https://api.test"
    cache := { enabled := some true, ttl := some 5000, key := some (.str "k") } }

/-- A plain client with all defaults. -/
def clientPlain : VelloConfig := { baseUrl := "https://api.test" }

/-- A client with two retries configured. -/
def clientRetry2 : VelloConfig :=
  { baseUrl := "https://api.test", retry := { retries := some 2 } }

/-- An environment whose browser-storage drivers always throw. -/
def envFail : CacheEnv :=
  { hasLocalStorage := true
    hasSessionStorage := true
    localGet := fun _ => .error "storage read failed"
    localSet := fun _ _ => .error "storage write failed"
    sessionGet := fun _ => .error "storage read failed"
    sessionSet := fun _ _ => .error "storage write failed"
    customGet := fun _ => .error "storage read failed"
    customSet := fun _ _ _ => .error "storage write failed" }

/-- A client caching through a caller-supplied storage driver. -/
def clientCustom : VelloConfig :=
  { baseUrl := "https://api.test"
    cache := { enabled := some true, storage := some .custom, key := some (.str "k")
               customStorage := some {} } }

/-! ## Helper lemmas about the attempt loop -/

/-- One-step unfolding of the fueled loop. -/
theorem execLoopF_step (respI : Option (VelloResponse → VelloResponse)) (cfg : RequestConfig)
    (net : Nat → FetchResult) (fuel retryCount : Nat) :
    execLoopF respI cfg net fuel retryCount =
      match attemptOnce respI cfg (net retryCount) retryCount with
      | .ok resp => ⟨.ok resp, 1, []⟩
      | .error e =>
          if shouldRetryRequest cfg e retryCount then
            match fuel with
            | 0 => ⟨.error e, 1, []⟩
            | fuel' + 1 =>
                let d := calculateRetryDelay cfg.retry retryCount e
                let r := execLoopF respI cfg net fuel' (retryCount + 1)
                ⟨r.outcome, r.attempts + 1, d :: r.delays⟩
          else
            ⟨.error e, 1, []⟩ := by
  rw [execLoopF]

/-- A positive retry decision means the retry count is below the maximum. -/
theorem shouldRetry_lt (cfg : RequestConfig) (e : RawError) (retryCount : Nat)
    (h : shouldRetryRequest cfg e retryCount = true) :
    retryCount < cfg.retry.retries.getD 0 := by
  simp only [shouldRetryRequest] at h
  split at h
  · exact absurd h (by simp)
  · omega

/-- The loop satisfies the recursion of `executeRequestWithRetry`. -/
theorem execLoop_unfold (respI : Option (VelloResponse → VelloResponse)) (cfg : RequestConfig)
    (net : Nat → FetchResult) (retryCount : Nat) :
    execLoop respI cfg net retryCount =
      match attemptOnce respI cfg (net retryCount) retryCount with
      | .ok resp => ⟨.ok resp, 1, []⟩
      | .error e =>
          if shouldRetryRequest cfg e retryCount then
            let r := execLoop respI cfg net (retryCount + 1)
            ⟨r.outcome, r.attempts + 1, calculateRetryDelay cfg.retry retryCount e :: r.delays⟩
          else
            ⟨.error e, 1, []⟩ := by
  unfold execLoop
  rw [execLoopF_step]
  cases hA : attemptOnce respI cfg (net retryCount) retryCount with
  | ok resp => rfl
  | error e =>
      by_cases hS : shouldRetryRequest cfg e retryCount = true
      · have hlt := shouldRetry_lt cfg e retryCount hS
        have hf : cfg.retry.retries.getD 0 - retryCount
            = (cfg.retry.retries.getD 0 - (retryCount + 1)) + 1 := by omega
        simp only [hS, if_true, hf]
      · simp only [hS, Bool.false_eq_true, if_false]

/-- Every run of the loop performs at least one network attempt. -/
theorem execLoop_attempts_pos (respI : Option (VelloResponse → VelloResponse))
    (cfg : RequestConfig) (net : Nat → FetchResult) (retryCount : Nat) :
    1 ≤ (execLoop respI cfg net retryCount).attempts := by
  rw [execLoop_unfold]
  cases attemptOnce respI cfg (net retryCount) retryCount with
  | ok resp => simp
  | error e =>
      by_cases hS : shouldRetryRequest cfg e retryCount = true <;> simp [hS]

/-- Under persistent retryable failure, the loop started at retry count `j`
performs `n + 1 - j` attempts and ends with the raw error of attempt `n`. -/
theorem execLoop_persistent (respI : Option (VelloResponse → VelloResponse))
    (cfg : RequestConfig) (net : Nat → FetchResult) (n : Nat) (err : Nat → RawError)
    (hn : cfg.retry.retries = some n)
    (hfail : ∀ k, k ≤ n → attemptOnce respI cfg (net k) k = .error (err k))
    (hretry : ∀ k, k < n →
      (cfg.retry.retryCondition.getD defaultRetryCondition) (classifyError (err k) k) = true) :
    ∀ d j, n - j = d → j ≤ n →
      (execLoop respI cfg net j).attempts = n + 1 - j ∧
      (execLoop respI cfg net j).outcome = .error (err n) := by
  intro d
  induction d with
  | zero =>
      intro j hd hj
      have hjn : j = n := by omega
      subst hjn
      rw [execLoop_unfold]
      simp only [hfail j le_rfl]
      have hS : shouldRetryRequest cfg (err j) j = false := by
        simp [shouldRetryRequest, hn]
      simp only [hS, Bool.false_eq_true, if_false]
      exact ⟨by simp, by simp⟩
  | succ d ih =>
      intro j hd hj
      have hjn : j < n := by omega
      rw [execLoop_unfold]
      simp only [hfail j (Nat.le_of_lt hjn)]
      have hS : shouldRetryRequest cfg (err j) j = true := by
        simp only [shouldRetryRequest, hn, Option.getD_some]
        rw [if_neg (by omega)]
        exact hretry j hjn
      simp only [hS, if_true]
      obtain ⟨ha, ho⟩ := ih (j + 1) (by omega) (by omega)
      refine ⟨?_, ho⟩
      simp only [ha]
      omega

/-- When the retry predicate first rejects a failure — at attempt `j`,
after accepting the failures of attempts `i, ..., j - 1` — the loop
started at retry count `i` stops right there: `j + 1 - i` attempts and the
raw error of attempt `j`. -/
theorem execLoop_stop_on_reject (respI : Option (VelloResponse → VelloResponse))
    (cfg : RequestConfig) (net : Nat → FetchResult) (j : Nat) (err : Nat → RawError)
    (hj : j ≤ cfg.retry.retries.getD 0)
    (hfail : ∀ k, k ≤ j → attemptOnce respI cfg (net k) k = .error (err k))
    (hretry : ∀ k, k < j →
      (cfg.retry.retryCondition.getD defaultRetryCondition) (classifyError (err k) k) = true)
    (hstop : (cfg.retry.retryCondition.getD defaultRetryCondition)
      (classifyError (err j) j) = false) :
    ∀ d i, j - i = d → i ≤ j →
      (execLoop respI cfg net i).attempts = j + 1 - i ∧
      (execLoop respI cfg net i).outcome = .error (err j) := by
  intro d
  induction d with
  | zero =>
      intro i hd hi
      have hij : i = j := by omega
      subst hij
      rw [execLoop_unfold]
      simp only [hfail i le_rfl]
      have hS : shouldRetryRequest cfg (err i) i = false := by
        simp only [shouldRetryRequest]
        split
        · rfl
        · exact hstop
      simp only [hS, Bool.false_eq_true, if_false]
      exact ⟨by simp, by simp⟩
  | succ d ih =>
      intro i hd hi
      have hij : i < j := by omega
      rw [execLoop_unfold]
      simp only [hfail i (Nat.le_of_lt hij)]
      have hS : shouldRetryRequest cfg (err i) i = true := by
        simp only [shouldRetryRequest]
        rw [if_neg (by omega)]
        exact hretry i hij
      simp only [hS, if_true]
      obtain ⟨ha, ho⟩ := ih (i + 1) (by omega) (by omega)
      refine ⟨?_, ho⟩
      simp only [ha]
      omega

/-- The loop never performs more than `fuel + 1` attempts. -/
theorem execLoopF_attempts_le (respI : Option (VelloResponse → VelloResponse))
    (cfg : RequestConfig) (net : Nat → FetchResult) :
    ∀ fuel retryCount, (execLoopF respI cfg net fuel retryCount).attempts ≤ fuel + 1 := by
  intro fuel
  induction fuel with
  | zero =>
      intro retryCount
      rw [execLoopF_step]
      cases attemptOnce respI cfg (net retryCount) retryCount with
      | ok resp => simp
      | error e => by_cases hS : shouldRetryRequest cfg e retryCount = true <;> simp [hS]
  | succ fuel ih =>
      intro retryCount
      rw [execLoopF_step]
      cases attemptOnce respI cfg (net retryCount) retryCount with
      | ok resp => simp
      | error e =>
          by_cases hS : shouldRetryRequest cfg e retryCount = true <;> simp [hS]
          have := ih (retryCount + 1)
          omega

/-! ## Helper lemmas about the pipeline -/

/-- On a live cache hit the pipeline returns the synthesized envelope with
the cache marker, performs no attempt, and leaves the memory map alone. -/
theorem request_hit (env : CacheEnv) (c : VelloConfig) (net : Nat → FetchResult)
    (endpoint : String) (options : RequestConfig) (mem : Cache) (now : Int)
    (cached : CachedResponse)
    (h1 : cacheEnabled (resolvedOf c options) = true)
    (h2 : isCacheableRequest c endpoint (resolvedOf c options) = true)
    (h3 : getFromCache env (resolvedOf c options).cache mem
      (generateCacheKey c (urlOf c (resolvedOf c options) endpoint) (resolvedOf c options))
      = some cached)
    (h4 : isCacheValid now cached (effTtl (resolvedOf c options)) = true) :
    request env c net endpoint options mem now =
      ⟨.ok (applyRespI c.responseInterceptor
        ⟨cached.data, cached.status, cached.statusText ++ " (Cached)", cached.headers⟩),
        0, [], mem⟩ := by
  simp only [request, h1, h2, Bool.and_self, if_true, h3, h4]

/-- When the lookup misses (no entry, a dead entry, or caching off), the
attempt count and the outcome are those of the attempt loop. -/
theorem request_miss (env : CacheEnv) (c : VelloConfig) (net : Nat → FetchResult)
    (endpoint : String) (options : RequestConfig) (mem : Cache) (now : Int)
    (hmiss : (cacheEnabled (resolvedOf c options)
        && isCacheableRequest c endpoint (resolvedOf c options)) = false
      ∨ getFromCache env (resolvedOf c options).cache mem
          (generateCacheKey c (urlOf c (resolvedOf c options) endpoint) (resolvedOf c options))
          = none
      ∨ ∃ cached, getFromCache env (resolvedOf c options).cache mem
          (generateCacheKey c (urlOf c (resolvedOf c options) endpoint) (resolvedOf c options))
          = some cached
        ∧ isCacheValid now cached (effTtl (resolvedOf c options)) = false) :
    (request env c net endpoint options mem now).attempts
        = (execLoop c.responseInterceptor (resolvedOf c options) net 0).attempts ∧
    (request env c net endpoint options mem now).outcome
        = (execLoop c.responseInterceptor (resolvedOf c options) net 0).outcome := by
  have hHit :
      (if (cacheEnabled (resolvedOf c options)
            && isCacheableRequest c endpoint (resolvedOf c options)) = true then
        match getFromCache env (resolvedOf c options).cache mem
          (generateCacheKey c (urlOf c (resolvedOf c options) endpoint) (resolvedOf c options)) with
        | some cached =>
            if isCacheValid now cached (effTtl (resolvedOf c options)) then some cached else none
        | none => none
      else none) = (none : Option CachedResponse) := by
    rcases hmiss with h | h | ⟨cached, hsome, hdead⟩
    · simp [h]
    · simp [h]
    · simp [hsome, hdead]
  simp only [request, hHit]
  cases hO : (execLoop c.responseInterceptor (resolvedOf c options) net 0).outcome with
  | ok response =>
      by_cases hC : ((cacheEnabled (resolvedOf c options)
          && isCacheableRequest c endpoint (resolvedOf c options))
          && decide (200 ≤ response.status) && decide (response.status < 300)) = true
        <;> simp [hC]
  | error e => simp

/-! ## Claim theorems -/

/-- C1: evaluating the pipeline at the failing input: a request whose
single attempt (default policy, zero retries) fails with an abort
(timeout) signal ends with the raw abort error rethrown to the caller —
no classified `VelloError` (ClientError) is raised. -/
theorem C1_timeout_exhaustion_rethrows_raw_error :
    (request env0 clientPlain netAbort "/test" {} [] 0).outcome
        = .error (.abort "The operation was aborted.")
      ∧ raisedClientError (request env0 clientPlain netAbort "/test" {} [] 0) = false := by
  decide

/-- C3, counterexample: with `safePaths` configured but not matching, a
POST to `/search` is NOT cache-eligible even though the path matches the
conventional read-oriented pattern — the safe-path check short-circuits
the remaining POST heuristics. -/
theorem C3_counterexample :
    isCacheableRequest clientPlain "/search"
        (resolvedOf clientPlain { method := some .POST, cache := { safePaths := some ["/api"] } })
        = false
      ∧ readPattern "/search" = true
      ∧ containsSub "/search" "/api" = false := by
  decide

/-- C3, amended: for a POST not eligible via the method list, GET/HEAD, or
the allow-all flag, eligibility is decided by the safe-path substrings
alone whenever `safePaths` is configured; only when `safePaths` is absent
do the GraphQL content type or the read-oriented path pattern make the
request eligible. Under the default policy the literal `/search` is
eligible and `/orders` is not. -/
theorem C3_post_eligibility :
    (∀ (c : VelloConfig) (endpoint : String) (cfg : RequestConfig),
      cfg.method = some .POST →
      (match (mergeCacheConfig c.cache cfg.cache).methods with
        | some ms => List.contains ms HttpMethod.POST
        | none => false) = false →
      (mergeCacheConfig c.cache cfg.cache).allowUnsafeMethods ≠ some true →
      (isCacheableRequest c endpoint cfg = true ↔
        (match (mergeCacheConfig c.cache cfg.cache).safePaths with
          | some paths => List.any paths (fun p => containsSub endpoint p) = true
          | none =>
              containsSub ((hLookup cfg.headers "Content-Type").getD "")
                "application/graphql" = true
              ∨ readPattern endpoint = true)))
    ∧ isCacheableRequest clientPlain "/search" (resolvedOf clientPlain { method := some .POST }) = true
    ∧ isCacheableRequest clientPlain "/orders" (resolvedOf clientPlain { method := some .POST }) = false := by
  refine ⟨?_, by decide, by decide⟩
  intro c endpoint cfg hm hmeth hallow
  simp only [isCacheableRequest, hm, hmeth, Option.getD_some]
  rw [if_neg (show ¬(false = true) by decide)]
  rw [if_neg (show ¬(HttpMethod.POST = HttpMethod.GET ∨ HttpMethod.POST = HttpMethod.HEAD)
    by decide)]
  rw [if_neg hallow]
  rw [if_pos trivial]
  cases hsp : (mergeCacheConfig c.cache cfg.cache).safePaths with
  | some paths => simp
  | none =>
      by_cases hgql : containsSub ((hLookup cfg.headers "Content-Type").getD "")
          "application/graphql" = true
      · simp [hgql]
      · simp [hgql]

/-- C3, witness for the amended theorem: a POST to `/x/list` with no
safe-path configuration is eligible via the read-oriented pattern. -/
theorem C3_witness :
    isCacheableRequest clientPlain "/x/list" { method := some .POST } = true :=
  (C3_post_eligibility.1 clientPlain "/x/list" { method := some .POST }
    rfl (by decide) (by decide)).mpr (Or.inr (by decide))

/-- C5, counterexample: a configured base delay of `0` is falsy and falls
back to the default `1000`, so the delay is `1000`, not `0 * 2 ^ 0 = 0`
as the claim states for every configured base delay. -/
theorem C5_counterexample :
    calculateRetryDelay { retryDelay := some 0 } 0 (.abort "x") = 1000
      ∧ (0 : Int) * 2 ^ 0 = 0 ∧ (1000 : Int) ≠ 0 := by
  decide

/-- C5, amended: with a custom delay function the delay is
`customFn(n, error)`; otherwise, for every nonzero configured base delay
`d` the delay before the retry following attempt `n` is `d * 2 ^ n` (a
zero or absent base delay falls back to the default `1000`); with base
delay 1000 the delays after attempts 0, 1, 2 are 1000, 2000, 4000. -/
theorem C5_retry_delay :
    (∀ (rc : RetryConfig) (n : Nat) (e : RawError) (f : Nat → VelloError → Int),
      rc.retryDelayFunction = some f →
      calculateRetryDelay rc n e = f n (delayErrorOf e n))
    ∧ (∀ (rc : RetryConfig) (n : Nat) (e : RawError) (d : Int),
      rc.retryDelayFunction = none → rc.retryDelay = some d → d ≠ 0 →
      calculateRetryDelay rc n e = d * 2 ^ n)
    ∧ (∀ e : RawError,
      calculateRetryDelay { retryDelay := some 1000 } 0 e = 1000
      ∧ calculateRetryDelay { retryDelay := some 1000 } 1 e = 2000
      ∧ calculateRetryDelay { retryDelay := some 1000 } 2 e = 4000) := by
  refine ⟨?_, ?_, ?_⟩
  · intro rc n e f hf
    simp [calculateRetryDelay, hf]
  · intro rc n e d hfn hd hdn
    simp [calculateRetryDelay, hfn, hd, orFalsyInt, hdn]
  · intro e
    refine ⟨?_, ?_, ?_⟩ <;> norm_num [calculateRetryDelay, orFalsyInt]

/-- C5, witness: base delay 500 after attempt 3 yields `500 * 2 ^ 3 = 4000`. -/
theorem C5_witness :
    calculateRetryDelay { retryDelay := some 500 } 3 (.abort "x") = (4000 : Int) := by
  rw [C5_retry_delay.2.1 { retryDelay := some 500 } 3 (.abort "x") 500 rfl rfl (by decide)]
  decide

/-- C2, counterexample: an entry stored with `ttl = 1000` at time 0, read
at time 2000 (expired by its own stored ttl) under a request whose cache
policy carries `ttl = 5000`, is still served from cache: zero attempts and
the cache-marked status text. -/
theorem C2_counterexample :
    (request env0 clientTtl5000 netOk200 "/users" {} [("k", entryTtl1000)] 2000).attempts = 0
    ∧ (request env0 clientTtl5000 netOk200 "/users" {} [("k", entryTtl1000)] 2000).outcome
        = .ok ⟨"cached-body", 200, "OK (Cached)", []⟩
    ∧ entryTtl1000.ttl ≤ 2000 - entryTtl1000.timestamp := by
  decide

/-- C2, amended: on a cache read during a request, a found entry is treated
as valid (zero network attempts) iff `now - entry.timestamp` is below the
ttl of the CURRENT resolved cache policy (`requestConfig.cache.ttl` with
the falsy 5-minute fallback); the ttl stored inside the entry is ignored
on read. -/
theorem C2_read_validity (env : CacheEnv) (c : VelloConfig) (net : Nat → FetchResult)
    (endpoint : String) (options : RequestConfig) (mem : Cache) (now : Int)
    (cached : CachedResponse)
    (h1 : cacheEnabled (resolvedOf c options) = true)
    (h2 : isCacheableRequest c endpoint (resolvedOf c options) = true)
    (h3 : getFromCache env (resolvedOf c options).cache mem
      (generateCacheKey c (urlOf c (resolvedOf c options) endpoint) (resolvedOf c options))
      = some cached) :
    ((request env c net endpoint options mem now).attempts = 0
      ↔ now - cached.timestamp < effTtl (resolvedOf c options)) := by
  by_cases hv : isCacheValid now cached (effTtl (resolvedOf c options)) = true
  · rw [request_hit env c net endpoint options mem now cached h1 h2 h3 hv]
    simp only [isCacheValid, decide_eq_true_eq] at hv
    simpa using hv
  · have hv' : isCacheValid now cached (effTtl (resolvedOf c options)) = false := by
      simpa using hv
    have hmiss := request_miss env c net endpoint options mem now
      (Or.inr (Or.inr ⟨cached, h3, hv'⟩))
    rw [hmiss.1]
    have hpos := execLoop_attempts_pos c.responseInterceptor (resolvedOf c options) net 0
    simp only [isCacheValid, decide_eq_false_iff_not] at hv'
    constructor
    · intro h0
      omega
    · intro hlt
      exact absurd hlt hv'

/-- C2, witness for the amended theorem: the same entry read at time 100
(within the request ttl of 5000) is a hit. -/
theorem C2_witness :
    (request env0 clientTtl5000 netOk200 "/users" {} [("k", entryTtl1000)] 100).attempts = 0 :=
  (C2_read_validity env0 clientTtl5000 netOk200 "/users" {} [("k", entryTtl1000)] 100
    entryTtl1000 (by decide) (by decide) (by decide)).mpr (by decide)

/-- C4: with `retries = n`, a run whose every attempt fails with an error
the retry predicate accepts performs exactly `n + 1` network attempts and
then raises the final error; no run ever exceeds `retries + 1` attempts;
and once the retry predicate returns false — at the first attempt `j`
whose failure it rejects after accepting the earlier ones — no further
attempt is made: exactly `j + 1` attempts, ending with the error of
attempt `j`. -/
theorem C4_retry_attempt_count :
    (∀ (respI : Option (VelloResponse → VelloResponse)) (cfg : RequestConfig)
      (net : Nat → FetchResult) (n : Nat) (err : Nat → RawError),
      cfg.retry.retries = some n →
      (∀ k, k ≤ n → attemptOnce respI cfg (net k) k = .error (err k)) →
      (∀ k, k < n →
        (cfg.retry.retryCondition.getD defaultRetryCondition) (classifyError (err k) k) = true) →
      (execLoop respI cfg net 0).attempts = n + 1
      ∧ (execLoop respI cfg net 0).outcome = .error (err n))
    ∧ (∀ (respI : Option (VelloResponse → VelloResponse)) (cfg : RequestConfig)
        (net : Nat → FetchResult),
      (execLoop respI cfg net 0).attempts ≤ cfg.retry.retries.getD 0 + 1)
    ∧ (∀ (respI : Option (VelloResponse → VelloResponse)) (cfg : RequestConfig)
        (net : Nat → FetchResult) (j : Nat) (err : Nat → RawError),
      j ≤ cfg.retry.retries.getD 0 →
      (∀ k, k ≤ j → attemptOnce respI cfg (net k) k = .error (err k)) →
      (∀ k, k < j →
        (cfg.retry.retryCondition.getD defaultRetryCondition) (classifyError (err k) k) = true) →
      (cfg.retry.retryCondition.getD defaultRetryCondition) (classifyError (err j) j) = false →
      (execLoop respI cfg net 0).attempts = j + 1
      ∧ (execLoop respI cfg net 0).outcome = .error (err j)) := by
  refine ⟨?_, ?_, ?_⟩
  · intro respI cfg net n err hn hfail hretry
    have h := execLoop_persistent respI cfg net n err hn hfail hretry n 0 (by omega) (by omega)
    simpa using h
  · intro respI cfg net
    have h := execLoopF_attempts_le respI cfg net (cfg.retry.retries.getD 0 - 0) 0
    simp only [execLoop]
    omega
  · intro respI cfg net j err hj hfail hretry hstop
    have h := execLoop_stop_on_reject respI cfg net j err hj hfail hretry hstop j 0
      (by omega) (by omega)
    simpa using h

/-- C4, witness: two configured retries and a persistently timing-out
transport yield exactly three attempts ending in the raw abort error;
under the same two-retry policy, a 404 failure — rejected by the default
predicate — is not retried: exactly one attempt. -/
theorem C4_witness :
    ((execLoop none (resolveConfig clientRetry2 {}) netAbort 0).attempts = 3
    ∧ (execLoop none (resolveConfig clientRetry2 {}) netAbort 0).outcome
        = .error (.abort "The operation was aborted."))
    ∧ (execLoop none (resolveConfig clientRetry2 {}) net404 0).attempts = 1 :=
  ⟨C4_retry_attempt_count.1 none (resolveConfig clientRetry2 {}) netAbort 2
    (fun _ => .abort "The operation was aborted.") rfl (fun _ _ => rfl) (fun _ _ => rfl),
  (C4_retry_attempt_count.2.2 none (resolveConfig clientRetry2 {}) net404 0
    (fun k => .vello (handleErrorResponse ⟨404, "Not Found", none, "missing", []⟩ k))
    (by decide)
    (fun k hk => by cases Nat.le_zero.mp hk; decide)
    (fun k hk => absurd hk (Nat.not_lt_zero k))
    (by decide)).1⟩

set_option maxRecDepth 10000 in
set_option maxHeartbeats 2000000 in
/-- Decimal renderings of statuses below 500 never collide with the
symbolic classification codes. -/
theorem natToString_below500_ne :
    ∀ s : Nat, s < 500 → toString s ≠ "NETWORK_ERROR" ∧ toString s ≠ "TIMEOUT" := by
  decide

/-- C6: the default retry predicate is true exactly on code
`NETWORK_ERROR` or `TIMEOUT`, or an attached response with status ≥ 500;
errors classified from a status-500 response are retried, errors
classified from any 4xx response are not. -/
theorem C6_default_retry_condition :
    (∀ e : VelloError, defaultRetryCondition e = true ↔
      (e.code = some "NETWORK_ERROR" ∨ e.code = some "TIMEOUT"
        ∨ ∃ r, e.response = some r ∧ 500 ≤ r.status))
    ∧ (∀ (raw : RawResponse) (n : Nat), raw.status = 500 →
        defaultRetryCondition (handleErrorResponse raw n) = true)
    ∧ (∀ (raw : RawResponse) (n : Nat), 400 ≤ raw.status → raw.status < 500 →
        defaultRetryCondition (handleErrorResponse raw n) = false) := by
  have hcode : ∀ (raw : RawResponse) (n : Nat),
      (handleErrorResponse raw n).code = some (toString raw.status) := by
    intro raw n
    simp [handleErrorResponse]
  have hresp : ∀ (raw : RawResponse) (n : Nat),
      (handleErrorResponse raw n).response
        = some ⟨raw.jsonBody.getD raw.textBody, raw.status, raw.statusText, raw.headers⟩ := by
    intro raw n
    simp [handleErrorResponse]
  refine ⟨?_, ?_, ?_⟩
  · intro e
    unfold defaultRetryCondition
    by_cases hc : e.code = some "NETWORK_ERROR" ∨ e.code = some "TIMEOUT"
    · rw [if_pos hc]
      refine iff_of_true rfl ?_
      rcases hc with h | h
      · exact Or.inl h
      · exact Or.inr (Or.inl h)
    · rw [if_neg hc]
      rw [or_iff_right (fun h => hc (Or.inl h)), or_iff_right (fun h => hc (Or.inr h))]
      cases hr : e.response with
      | none => simp
      | some r =>
          simp only [Bool.and_eq_true, decide_eq_true_eq, Option.some.injEq]
          constructor
          · rintro ⟨_, h5⟩
            exact ⟨r, rfl, h5⟩
          · rintro ⟨r', hr', h5⟩
            cases hr'
            exact ⟨by omega, h5⟩
  · intro raw n h500
    unfold defaultRetryCondition
    rw [hcode, hresp, h500]
    rw [if_neg (show ¬(some (toString 500) = some "NETWORK_ERROR"
      ∨ some (toString 500) = some "TIMEOUT") by decide)]
    simp
  · intro raw n h4 h5
    have hne := natToString_below500_ne raw.status h5
    unfold defaultRetryCondition
    rw [hcode, hresp]
    rw [if_neg (show ¬(some (toString raw.status) = some "NETWORK_ERROR"
      ∨ some (toString raw.status) = some "TIMEOUT") by
        rintro (h | h)
        · exact hne.1 (Option.some.injEq _ _ ▸ h)
        · exact hne.2 (Option.some.injEq _ _ ▸ h))]
    cases hd : decide (500 ≤ raw.status) with
    | false => simp [hd]
    | true => exact absurd (of_decide_eq_true hd) (by omega)

/-- C6, witness: a 404 error is not retried by the default predicate. -/
theorem C6_witness :
    defaultRetryCondition (handleErrorResponse ⟨404, "Not Found", none, "missing", []⟩ 0)
      = false :=
  C6_default_retry_condition.2.2 ⟨404, "Not Found", none, "missing", []⟩ 0
    (by decide) (by decide)

/-- C7: when caching is on, the request is cache-eligible, and a live entry
exists (age below the resolved ttl), the pipeline performs zero network
attempts and returns the envelope synthesized from the entry — the cached
status text with the ` (Cached)` marker appended — after passing it through
the response interceptor; the memory map is untouched. -/
theorem C7_cache_hit_short_circuit (env : CacheEnv) (c : VelloConfig) (net : Nat → FetchResult)
    (endpoint : String) (options : RequestConfig) (mem : Cache) (now : Int)
    (cached : CachedResponse)
    (h1 : cacheEnabled (resolvedOf c options) = true)
    (h2 : isCacheableRequest c endpoint (resolvedOf c options) = true)
    (h3 : getFromCache env (resolvedOf c options).cache mem
      (generateCacheKey c (urlOf c (resolvedOf c options) endpoint) (resolvedOf c options))
      = some cached)
    (h4 : isCacheValid now cached (effTtl (resolvedOf c options)) = true) :
    request env c net endpoint options mem now =
      ⟨.ok (applyRespI c.responseInterceptor
        ⟨cached.data, cached.status, cached.statusText ++ " (Cached)", cached.headers⟩),
        0, [], mem⟩ :=
  request_hit env c net endpoint options mem now cached h1 h2 h3 h4

/-- C7, witness: a fresh entry under key `k` short-circuits the pipeline. -/
theorem C7_witness :
    request env0 clientTtl5000 netOk200 "/users" {} [("k", entryTtl1000)] 100 =
      ⟨.ok ⟨"cached-body", 200, "OK (Cached)", []⟩, 0, [], [("k", entryTtl1000)]⟩ := by
  have h := C7_cache_hit_short_circuit env0 clientTtl5000 netOk200 "/users" {}
    [("k", entryTtl1000)] 100 entryTtl1000 (by decide) (by decide) (by decide) (by decide)
  simpa [applyRespI, entryTtl1000] using h

/-- C8: the classifier maps an abort signal to code `TIMEOUT`; a
connectivity `TypeError` mentioning fetch to code `NETWORK_ERROR`; a
received non-2xx response to a thrown error with code the status rendered
as a string, a message carrying status and status text, and an attached
envelope holding the best-effort parsed body (structured parse, falling
back to raw text); and anything else to `UNKNOWN` with the underlying
message. -/
theorem C8_error_classification :
    (∀ (m : String) (n : Nat),
      classifyError (.abort m) n = ⟨"Request timeout", none, some "TIMEOUT", n⟩)
    ∧ (∀ (m : String) (n : Nat), containsSub m "fetch" = true →
      classifyError (.typeErr m) n = ⟨"Network error", none, some "NETWORK_ERROR", n⟩)
    ∧ (∀ (respI : Option (VelloResponse → VelloResponse)) (cfg : RequestConfig)
        (raw : RawResponse) (n : Nat), ¬(200 ≤ raw.status ∧ raw.status < 300) →
      attemptOnce respI cfg (.ok raw) n = .error (.vello (handleErrorResponse raw n))
      ∧ (handleErrorResponse raw n).code = some (toString raw.status)
      ∧ (handleErrorResponse raw n).message
          = "HTTP Error " ++ toString raw.status ++ ": " ++ raw.statusText
      ∧ (handleErrorResponse raw n).response
          = some ⟨raw.jsonBody.getD raw.textBody, raw.status, raw.statusText, raw.headers⟩)
    ∧ (∀ (m : String) (n : Nat),
      classifyError (.other m) n = ⟨orFalsyStr m "Unknown error", none, some "UNKNOWN", n⟩) := by
  refine ⟨?_, ?_, ?_, ?_⟩
  · intro m n
    rfl
  · intro m n h
    simp [classifyError, h]
  · intro respI cfg raw n h
    refine ⟨?_, by simp [handleErrorResponse], by simp [handleErrorResponse],
      by simp [handleErrorResponse]⟩
    simp [attemptOnce, h]
  · intro m n
    rfl

/-- C8, witness: a fetch connectivity failure classifies as
`NETWORK_ERROR`, and a 404 response raises the classified status error. -/
theorem C8_witness :
    classifyError (.typeErr "Failed to fetch") 0
      = ⟨"Network error", none, some "NETWORK_ERROR", 0⟩
    ∧ attemptOnce none {} (.ok ⟨404, "Not Found", none, "missing", []⟩) 1
        = .error (.vello (handleErrorResponse ⟨404, "Not Found", none, "missing", []⟩ 1)) :=
  ⟨C8_error_classification.2.1 "Failed to fetch" 0 (by decide),
    (C8_error_classification.2.2.1 none {} ⟨404, "Not Found", none, "missing", []⟩ 1
      (by decide)).1⟩

/-- Sanitizing the environment does not change what a cache read returns:
a throwing driver read already behaves as a miss. -/
theorem getFromCache_sanitize (env : CacheEnv) (cc : CacheConfig) (mem : Cache) (key : String) :
    getFromCache (sanitizeEnv env) cc mem key = getFromCache env cc mem key := by
  simp only [getFromCache, getFromCacheRaw, sanitizeEnv]
  cases hs : cc.storage with
  | none => rfl
  | some k =>
      cases k with
      | memory => rfl
      | localStorage =>
          cases henv : env.hasLocalStorage with
          | false => simp
          | true => cases hg : env.localGet key <;> simp [hg]
      | sessionStorage =>
          cases henv : env.hasSessionStorage with
          | false => simp
          | true => cases hg : env.sessionGet key <;> simp [hg]
      | custom =>
          cases hcs : cc.customStorage with
          | none => rfl
          | some cs =>
              cases hg : cs.hasGet with
              | false => simp [hg]
              | true => cases hc : env.customGet key <;> simp [hg, hc]

/-- Sanitizing the environment does not change the in-memory map produced
by a cache write: driver write results are discarded either way. -/
theorem setToCache_sanitize (env : CacheEnv) (cc : CacheConfig) (mem : Cache)
    (key : String) (d : CachedResponse) :
    setToCache (sanitizeEnv env) cc mem key d = setToCache env cc mem key d := by
  simp only [setToCache, setToCacheRaw, sanitizeEnv]
  cases hs : cc.storage with
  | none => rfl
  | some k =>
      cases k with
      | memory => rfl
      | localStorage =>
          cases henv : env.hasLocalStorage with
          | false => simp
          | true => cases hg : env.localSet key d <;> simp [hg]
      | sessionStorage =>
          cases henv : env.hasSessionStorage with
          | false => simp
          | true => cases hg : env.sessionSet key d <;> simp [hg]
      | custom =>
          cases hcs : cc.customStorage with
          | none => rfl
          | some cs =>
              cases hg : cs.hasSet with
              | false => simp [hg]
              | true => cases hc : env.customSet key d cc.ttl <;> simp [hg, hc]

/-- C9: storage-layer failures are fully absorbed: a request behaves
identically under an environment whose drivers throw and under the benign
sanitized environment (so no storage failure ever surfaces to the caller);
a raw read failure yields a miss, and a raw write failure leaves the
memory map untouched. -/
theorem C9_storage_failures_absorbed :
    (∀ (env : CacheEnv) (c : VelloConfig) (net : Nat → FetchResult) (endpoint : String)
      (options : RequestConfig) (mem : Cache) (now : Int),
      request env c net endpoint options mem now
        = request (sanitizeEnv env) c net endpoint options mem now)
    ∧ (∀ (env : CacheEnv) (cc : CacheConfig) (mem : Cache) (key : String) (msg : String),
      getFromCacheRaw env cc mem key = .error msg → getFromCache env cc mem key = none)
    ∧ (∀ (env : CacheEnv) (cc : CacheConfig) (mem : Cache) (key : String)
        (d : CachedResponse) (msg : String),
      setToCacheRaw env cc mem key d = .error msg → setToCache env cc mem key d = mem) := by
  refine ⟨?_, ?_, ?_⟩
  · intro env c net endpoint options mem now
    simp only [request, getFromCache_sanitize, setToCache_sanitize]
  · intro env cc mem key msg h
    simp [getFromCache, h]
  · intro env cc mem key d msg h
    simp [setToCache, h]

/-- C9, witness: under always-throwing browser storage, a localStorage
read is a miss, a localStorage write leaves the memory map unchanged, and
a full request equals its sanitized-environment run. -/
theorem C9_witness :
    getFromCache envFail { storage := some .localStorage } [] "k" = none
    ∧ setToCache envFail { storage := some .localStorage } [] "k" entryTtl1000 = []
    ∧ request envFail clientTtl5000 netOk200 "/users" {} [] 0
        = request (sanitizeEnv envFail) clientTtl5000 netOk200 "/users" {} [] 0 :=
  ⟨C9_storage_failures_absorbed.2.1 envFail { storage := some .localStorage } [] "k"
      "storage read failed" (by decide),
    C9_storage_failures_absorbed.2.2 envFail { storage := some .localStorage } [] "k"
      entryTtl1000 "storage write failed" (by decide),
    C9_storage_failures_absorbed.1 envFail clientTtl5000 netOk200 "/users" {} [] 0⟩

/-- Replacing the value at a key keeps every key of the map present. -/
theorem memSet_keys_mem (m : Cache) (k : String) (v : CachedResponse) (x : String)
    (hx : x ∈ List.map Prod.fst m) : x ∈ List.map Prod.fst (memSet m k v) := by
  unfold memSet
  by_cases h : List.any m (fun p => p.1 == k) = true
  · rw [if_pos h]
    have hkeys : List.map Prod.fst (List.map (fun p => if p.1 == k then (k, v) else p) m)
        = List.map Prod.fst m := by
      rw [List.map_map]
      apply List.map_congr_left
      intro p hp
      by_cases hpk : (p.1 == k) = true
      · simp only [Function.comp, hpk, if_true]
        exact (eq_of_beq hpk).symm
      · simp only [Function.comp, hpk]
        rw [if_neg (by simp [hpk])]
    rw [hkeys]
    exact hx
  · rw [if_neg h]
    simp only [List.map_append, List.mem_append]
    exact Or.inl hx

/-- A cache write preserves every key already in the memory map. -/
theorem setToCache_keys (env : CacheEnv) (cc : CacheConfig) (mem : Cache) (key : String)
    (d : CachedResponse) (x : String) (hx : x ∈ List.map Prod.fst mem) :
    x ∈ List.map Prod.fst (setToCache env cc mem key d) := by
  unfold setToCache setToCacheRaw
  cases hs : cc.storage with
  | none => exact memSet_keys_mem mem key d x hx
  | some k =>
      cases k with
      | memory => exact memSet_keys_mem mem key d x hx
      | localStorage =>
          cases henv : env.hasLocalStorage with
          | false => simpa using hx
          | true => cases hg : env.localSet key d <;> simpa [hg] using hx
      | sessionStorage =>
          cases henv : env.hasSessionStorage with
          | false => simpa using hx
          | true => cases hg : env.sessionSet key d <;> simpa [hg] using hx
      | custom =>
          cases hcs : cc.customStorage with
          | none => simpa using hx
          | some cs =>
              cases hg : cs.hasSet with
              | false => simpa [hg] using hx
              | true => cases hc : env.customSet key d cc.ttl <;> simpa [hg, hc] using hx

/-- A non-memory cache write leaves the in-memory map unchanged. -/
theorem setToCache_nonmemory (env : CacheEnv) (cc : CacheConfig) (mem : Cache)
    (key : String) (d : CachedResponse)
    (h : cc.storage = some .localStorage ∨ cc.storage = some .sessionStorage
      ∨ cc.storage = some .custom) :
    setToCache env cc mem key d = mem := by
  unfold setToCache setToCacheRaw
  rcases h with h | h | h
  · rw [h]
    cases henv : env.hasLocalStorage with
    | false => simp
    | true => cases hg : env.localSet key d <;> simp [hg]
  · rw [h]
    cases henv : env.hasSessionStorage with
    | false => simp
    | true => cases hg : env.sessionSet key d <;> simp [hg]
  · rw [h]
    cases hcs : cc.customStorage with
    | none => rfl
    | some cs =>
        cases hg : cs.hasSet with
        | false => simp [hg]
        | true => cases hc : env.customSet key d cc.ttl <;> simp [hg, hc]

/-- The memory map after a request is either untouched or the result of
one cache write under the resolved policy. -/
theorem request_mem_cases (env : CacheEnv) (c : VelloConfig) (net : Nat → FetchResult)
    (endpoint : String) (options : RequestConfig) (mem : Cache) (now : Int) :
    (request env c net endpoint options mem now).mem = mem
    ∨ ∃ key entry, (request env c net endpoint options mem now).mem
        = setToCache env (resolvedOf c options).cache mem key entry := by
  simp only [request]
  split
  · exact Or.inl rfl
  · split
    · split
      · exact Or.inr ⟨_, _, rfl⟩
      · exact Or.inl rfl
    · exact Or.inl rfl

/-- C10: the cache statistics snapshot reflects the in-memory map only:
every key present before a request is still listed afterwards (reads never
purge, a memory write only adds or replaces), and when the resolved
storage backend is localStorage, sessionStorage or custom, the snapshot is
completely unchanged by the request. -/
theorem C10_cache_stats_memory_only (env : CacheEnv) (c : VelloConfig) (net : Nat → FetchResult)
    (endpoint : String) (options : RequestConfig) (mem : Cache) (now : Int) :
    (∀ p ∈ mem, p.1 ∈ (getCacheStats (request env c net endpoint options mem now).mem).2)
    ∧ ((resolvedOf c options).cache.storage = some .localStorage
        ∨ (resolvedOf c options).cache.storage = some .sessionStorage
        ∨ (resolvedOf c options).cache.storage = some .custom →
      getCacheStats (request env c net endpoint options mem now).mem = getCacheStats mem) := by
  constructor
  · intro p hp
    have hx : p.1 ∈ List.map Prod.fst mem := List.mem_map_of_mem Prod.fst hp
    rcases request_mem_cases env c net endpoint options mem now with h | ⟨key, entry, h⟩
    · rw [h]
      exact hx
    · rw [h]
      exact setToCache_keys env (resolvedOf c options).cache mem key entry p.1 hx
  · intro hs
    rcases request_mem_cases env c net endpoint options mem now with h | ⟨key, entry, h⟩
    · rw [h]
    · rw [h, setToCache_nonmemory env (resolvedOf c options).cache mem key entry hs]

/-- C10, witness: after a request that misses on an expired entry and
stores a fresh response, the old key is still counted; and a run through a
custom backend leaves the snapshot untouched. -/
theorem C10_witness :
    "k" ∈ (getCacheStats
      (request env0 clientTtl5000 netOk200 "/users" {} [("k", entryTtl1000)] 999999).mem).2
    ∧ getCacheStats (request env0 clientCustom netOk200 "/users" {} [("k", entryTtl1000)] 0).mem
        = getCacheStats [("k", entryTtl1000)] :=
  ⟨(C10_cache_stats_memory_only env0 clientTtl5000 netOk200 "/users" {}
      [("k", entryTtl1000)] 999999).1 ("k", entryTtl1000) (by decide),
    (C10_cache_stats_memory_only env0 clientCustom netOk200 "/users" {}
      [("k", entryTtl1000)] 0).2 (Or.inr (Or.inr (by decide)))⟩

end Vello
